import Mathlib

/-!
Verification development for the canvas-js-3d software renderer.

The JavaScript sources are shallowly embedded over exact rational
arithmetic (`ℚ`): the JavaScript number operations the claims depend on
are addition, subtraction, multiplication, division and comparisons,
all mirrored exactly on `ℚ`.  Angle-based rotations (`Math.cos` and
`Math.sin` in vector3.js) are parameterized by the pair `(c, s)`
standing for the cosine and sine of the rotation angle; the Pythagorean
identity `c^2 + s^2 = 1` is carried as a hypothesis where a claim needs
it.  Rotation by the negated angle `-a` (used by camera.js
`_worldToCameraSpace`) is rotation with the pair `(c, -s)`, since
`cos (-a) = cos a` and `sin (-a) = -sin a`.

`Vector3.getNormalized` uses `Math.sqrt`, so it is embedded separately
over `ℝ` with `Real.sqrt` (`Vec3R` below): an exact square root does
not exist on `ℚ`.

The Wavefront lexer and parser loops are embedded as recursions on an
explicit fuel argument (each JavaScript loop iteration consumes at
least one character or token, so `length + 1` fuel always suffices and
the fuel pattern never changes the computed value on the wrapper calls
used here); the wrappers `lexTokens` and `parseTokens` supply that
fuel exactly once.
-/

/-- Embeds `Vector3` (src/src/math/vector3.js): three components,
immutable, every operation returns a new value. -/
structure Vec3 where
  x : ℚ
  y : ℚ
  z : ℚ
deriving DecidableEq, Repr

/-- Embeds `Vector2` (src/src/math/vector2.js), used for screen positions. -/
structure Vec2 where
  x : ℚ
  y : ℚ
deriving DecidableEq, Repr

/-- `Vector3.getTranslated(dir)`: componentwise sum. -/
def Vec3.getTranslated (v dir : Vec3) : Vec3 :=
  ⟨v.x + dir.x, v.y + dir.y, v.z + dir.z⟩

/-- `Vector3.getScaled(scalar)`: componentwise scaling by a scalar. -/
def Vec3.getScaled (v : Vec3) (scalar : ℚ) : Vec3 :=
  ⟨v.x * scalar, v.y * scalar, v.z * scalar⟩

/-- `Vector3.getScaledByVector(scale)`: componentwise product. -/
def Vec3.getScaledByVector (v scale : Vec3) : Vec3 :=
  ⟨v.x * scale.x, v.y * scale.y, v.z * scale.z⟩

/-- `Vector3.getRotatedX(angle)`: rotation in the YZ plane; `c` and `s`
stand for `Math.cos(angle)` and `Math.sin(angle)`. -/
def Vec3.getRotatedX (v : Vec3) (c s : ℚ) : Vec3 :=
  ⟨v.x, v.y * c - v.z * s, v.y * s + v.z * c⟩

/-- `Vector3.getRotatedY(angle)`: rotation in the XZ plane; `c` and `s`
stand for `Math.cos(angle)` and `Math.sin(angle)`. -/
def Vec3.getRotatedY (v : Vec3) (c s : ℚ) : Vec3 :=
  ⟨v.x * c - v.z * s, v.y, v.x * s + v.z * c⟩

/-- `Vector3.getRotatedZ(angle)`: rotation in the XY plane; `c` and `s`
stand for `Math.cos(angle)` and `Math.sin(angle)`. -/
def Vec3.getRotatedZ (v : Vec3) (c s : ℚ) : Vec3 :=
  ⟨v.x * c - v.y * s, v.x * s + v.y * c, v.z⟩

/-- `Vector3.getDot(other)`. -/
def Vec3.getDot (v other : Vec3) : ℚ :=
  v.x * other.x + v.y * other.y + v.z * other.z

/-- `Vector3.getCross(other)`. -/
def Vec3.getCross (v other : Vec3) : Vec3 :=
  ⟨v.y * other.z - v.z * other.y,
   v.z * other.x - v.x * other.z,
   v.x * other.y - v.y * other.x⟩

/-- `Vector3.getDifference(other)`: `this - other`. -/
def Vec3.getDifference (v other : Vec3) : Vec3 :=
  ⟨v.x - other.x, v.y - other.y, v.z - other.z⟩

/-- `Vector3.zero()`. -/
def Vec3.zero : Vec3 := ⟨0, 0, 0⟩

/-- `Vector3.one()`. -/
def Vec3.one : Vec3 := ⟨1, 1, 1⟩

/-- Embeds the `Camera` state (src/src/rendering/camera.js): screen
size, aspect ratio and focal length as the stored rationals, the pose
(position, and the camera Euler rotation represented by its
cosine/sine pairs), and the back-face-culling flag.  The color fields
of the source `Material` are not modelled: no claim concerns them. -/
structure Camera where
  screenW : ℚ
  screenH : ℚ
  aspect : ℚ
  focal : ℚ
  pos : Vec3
  rotCX : ℚ
  rotSX : ℚ
  rotCY : ℚ
  rotSY : ℚ
  rotCZ : ℚ
  rotSZ : ℚ
  cull : Bool
deriving DecidableEq, Repr

/-- Embeds `Camera._worldToCameraSpace` (camera.js lines 392-403):
translate by the negated camera position, then rotate by the negated
camera rotation in reverse axis order Z, Y, X.  Rotation by `-angle`
is rotation with the pair `(cos angle, -sin angle)`. -/
def worldToCameraSpace (cam : Camera) (worldPos : Vec3) : Vec3 :=
  (((worldPos.getTranslated (cam.pos.getScaled (-1))).getRotatedZ
      cam.rotCZ (-cam.rotSZ)).getRotatedY
      cam.rotCY (-cam.rotSY)).getRotatedX
      cam.rotCX (-cam.rotSX)

/-- Embeds the per-vertex body of `SceneObject.getSceneVertices`
(sceneObject.js lines 38-46): scale, then rotate X, Y, Z (cosine/sine
pairs of the object's Euler rotation), then translate. -/
def getSceneVertex (scale : Vec3) (cx sx cy sy cz sz : ℚ)
    (position : Vec3) (v : Vec3) : Vec3 :=
  ((((v.getScaledByVector scale).getRotatedX cx sx).getRotatedY
      cy sy).getRotatedZ cz sz).getTranslated position

/-- The camera-space quantity `((v1 - v0) × (v2 - v0)) · v0` computed
by `Camera._isBackFacing` (camera.js lines 343-357) from the first
three face vertices `p0 p1 p2` (world space). -/
def faceNormalDot (cam : Camera) (p0 p1 p2 : Vec3) : ℚ :=
  let v0 := worldToCameraSpace cam p0
  let v1 := worldToCameraSpace cam p1
  let v2 := worldToCameraSpace cam p2
  ((v1.getDifference v0).getCross (v2.getDifference v0)).getDot v0

/-- Embeds `Camera._isBackFacing`: true when the face normal computed
from the first three vertices points away from the camera
(`normal · v0 > 0`). -/
def isBackFacing (cam : Camera) (p0 p1 p2 : Vec3) : Bool :=
  decide (0 < faceNormalDot cam p0 p1 p2)

/-- `_isBackFacing` on the face vertex list; the source reads
`faceVertices[0] .. faceVertices[2]` and is only called on lists of
length at least 3. -/
def isBackFacingL (cam : Camera) : List Vec3 → Bool
  | p0 :: p1 :: p2 :: _ => isBackFacing cam p0 p1 p2
  | _ => false

/-- The near-plane epsilon `1e-4` of `_getNormalizedScreenPosition`. -/
def nearEpsilon : ℚ := 1 / 10000

/-- Embeds `Camera._getNormalizedScreenPosition` (camera.js lines
376-389): `null` (here `none`) when the camera-space Z is at or behind
the near-plane epsilon, otherwise perspective division. -/
def getNormalizedScreenPosition (cam : Camera) (scenePos : Vec3) :
    Option Vec2 :=
  if scenePos.z ≤ nearEpsilon then none
  else some ⟨scenePos.x / scenePos.z * cam.focal / cam.aspect,
    scenePos.y / scenePos.z * cam.focal⟩

/-- Embeds `Camera._getScaledScreenPosition` (camera.js lines 360-373). -/
def getScaledScreenPosition (cam : Camera) (normScreenPos : Vec2) : Vec2 :=
  ⟨(normScreenPos.x + 1) / 2 * cam.screenW,
   (1 - (normScreenPos.y + 1) / 2) * cam.screenH⟩

/-- Embeds `ProjectedFace` (src/src/rendering/projected-face.js):
screen positions and the average camera-space depth used for sorting.
The carried material colors are not modelled: no claim concerns them. -/
structure ProjFace where
  screenPositions : List Vec2
  depth : ℚ
deriving DecidableEq, Repr

/-- The per-vertex loop of `Camera.projectSceneObject` (camera.js lines
301-319): accumulates the camera-space depth sum and the scaled screen
positions, and fails (`none`, the `isValid = false` break) as soon as
one vertex is at or behind the near plane. -/
def projectFaceAux (cam : Camera) :
    List Vec3 → ℚ → List Vec2 → Option (ℚ × List Vec2)
  | [], depthSum, acc => some (depthSum, acc.reverse)
  | vert :: rest, depthSum, acc =>
    let cameraSpacePos := worldToCameraSpace cam vert
    match getNormalizedScreenPosition cam cameraSpacePos with
    | none => none
    | some normScreenPos =>
      projectFaceAux cam rest (depthSum + cameraSpacePos.z)
        (getScaledScreenPosition cam normScreenPos :: acc)

/-- The post-culling part of the `projectSceneObject` face loop body
(camera.js lines 301-331): project every vertex and build the
`ProjectedFace` with the average depth, or drop the face. -/
def projectFace (cam : Camera) (faceVertices : List Vec3) :
    Option ProjFace :=
  match projectFaceAux cam faceVertices 0 [] with
  | none => none
  | some (depthSum, screenPositions) =>
    some ⟨screenPositions, depthSum / (faceVertices.length : ℚ)⟩

/-- The whole face loop body of `Camera.projectSceneObject` (camera.js
lines 291-332): back-face culling (when enabled and the face has at
least 3 vertices), then projection. -/
def projectSceneObjectFace (cam : Camera) (faceVertices : List Vec3) :
    Option ProjFace :=
  if cam.cull = true ∧ 3 ≤ faceVertices.length ∧
      isBackFacingL cam faceVertices = true then none
  else projectFace cam faceVertices

/-- Embeds `Camera.projectSceneObject` on the per-face vertex lists
(after the `face.map(idx => sceneVertices[idx])` step): one optional
`ProjectedFace` per face. -/
def projectSceneObject (cam : Camera) (faces : List (List Vec3)) :
    List ProjFace :=
  faces.filterMap (projectSceneObjectFace cam)

/-- Embeds `ProjectedFace.compareByDepth` (projected-face.js lines
29-31): `b.depth - a.depth`. -/
def compareByDepth (a b : ProjFace) : ℚ :=
  b.depth - a.depth

/-- The order realized by `allFaces.sort(ProjectedFace.compareByDepth)`:
`a` may stay before `b` exactly when the comparator is nonpositive. -/
def faceLe (a b : ProjFace) : Prop :=
  compareByDepth a b ≤ 0

instance : DecidableRel faceLe :=
  fun a b => inferInstanceAs (Decidable (compareByDepth a b ≤ 0))

/-- The sort of `Engine.#renderAllObjects` (engine.js lines 252-254):
sorting the collected faces with `ProjectedFace.compareByDepth`. -/
def sortProjectedFaces (allFaces : List ProjFace) : List ProjFace :=
  List.insertionSort faceLe allFaces

/-- The face order `Engine.#renderAllObjects` (engine.js lines 243-254)
processes: the collected list, sorted by `compareByDepth` exactly when
depth sorting is enabled. -/
def renderFaceOrder (isDepthSorting : Bool) (allFaces : List ProjFace) :
    List ProjFace :=
  if isDepthSorting then sortProjectedFaces allFaces else allFaces

/-- The collection step of `Engine.#renderAllObjects` (engine.js lines
245-250) followed by the optional sort: faces of all scene objects in
scene order. -/
def renderAllObjectsFaces (cam : Camera) (isDepthSorting : Bool)
    (objFaces : List (List (List Vec3))) : List ProjFace :=
  renderFaceOrder isDepthSorting
    (objFaces.foldl (fun allFaces o => allFaces ++ projectSceneObject cam o) [])

/-- Embeds `ColorUtils.calculateFogAmount` (color-utils.js lines 81-85). -/
def calculateFogAmount (depth near far : ℚ) : ℚ :=
  if depth ≤ near then 0
  else if far ≤ depth then 1
  else (depth - near) / (far - near)

/-- Token stream elements of the Wavefront lexer
(src/src/wavefront-loading/wavefront-lexer.js): KEYWORD, NUMBER,
SLASH, NEWLINE, EOF. -/
inductive Tok where
  | keyword (value : List Char)
  | number (value : ℚ)
  | slash
  | newline
  | eof
deriving DecidableEq, Repr

/-- `WavefrontLexer.isDigit`. -/
def isDigitC (c : Char) : Bool :=
  decide ('0' ≤ c) && decide (c ≤ '9')

/-- `WavefrontLexer.isAlpha`. -/
def isAlphaC (c : Char) : Bool :=
  (decide ('a' ≤ c) && decide (c ≤ 'z')) ||
    (decide ('A' ≤ c) && decide (c ≤ 'Z')) || decide (c = '_')

/-- `WavefrontLexer.isAlphaNumeric`. -/
def isAlphaNumC (c : Char) : Bool :=
  isAlphaC c || isDigitC c

/-- The numeric value of one decimal digit character. -/
def digitToNat (c : Char) : ℕ :=
  c.toNat - '0'.toNat

/-- The natural number denoted by a list of decimal digit characters. -/
def natOfDigits (ds : List Char) : ℕ :=
  ds.foldl (fun n c => 10 * n + digitToNat c) 0

/-- Whether the next character exists and is a digit:
`this.isDigit(this.peek())`. -/
def headIsDigit : List Char → Bool
  | c :: _ => isDigitC c
  | [] => false

/-- The exact rational `parseFloat` returns on the substrings
`WavefrontLexer.lexNumber` scans: optional minus sign, integer digits,
optional fraction digits, optional exponent (an absent exponent digit
list denotes exponent 0, as `parseFloat` of e.g. `1e` is `1`). -/
def lexNumberVal (neg : Bool) (intDs fracDs : List Char) (expNeg : Bool)
    (expDs : List Char) : ℚ :=
  let mantissa : ℚ :=
    (natOfDigits intDs : ℚ) + (natOfDigits fracDs : ℚ) / 10 ^ fracDs.length
  let signed : ℚ := if neg then -mantissa else mantissa
  let e := natOfDigits expDs
  if expNeg then signed / 10 ^ e else signed * 10 ^ e

/-- The exponent scan of `lexNumber`: an optional sign, then digits. -/
def lexExpPart (cs : List Char) : Bool × List Char × List Char :=
  match cs with
  | '+' :: r => (false, r.takeWhile isDigitC, r.dropWhile isDigitC)
  | '-' :: r => (true, r.takeWhile isDigitC, r.dropWhile isDigitC)
  | r => (false, r.takeWhile isDigitC, r.dropWhile isDigitC)

/-- Embeds `WavefrontLexer.lexNumber` (wavefront-lexer.js lines 82-108):
`c` is the already-consumed first character (a digit, or a minus sign
followed by a digit); scans integer digits, an optional `.digits` part
(only when a digit follows the dot), and an optional `e`/`E` exponent
with optional sign; returns the NUMBER token and the rest of the
input. -/
def lexNumber (c : Char) (cs : List Char) : Tok × List Char :=
  let neg := c = '-'
  let intDs := (if neg then [] else [c]) ++ cs.takeWhile isDigitC
  let r1 := cs.dropWhile isDigitC
  let fr :=
    match r1 with
    | '.' :: r2 =>
      if headIsDigit r2 then (r2.takeWhile isDigitC, r2.dropWhile isDigitC)
      else (([] : List Char), r1)
    | _ => (([] : List Char), r1)
  let ex :=
    match fr.2 with
    | 'e' :: r3 => lexExpPart r3
    | 'E' :: r3 => lexExpPart r3
    | r3 => (false, ([] : List Char), r3)
  (Tok.number (lexNumberVal neg intDs fr.1 ex.1 ex.2.1), ex.2.2)

/-- Embeds `WavefrontLexer.lexKeyword` (wavefront-lexer.js lines
114-120): the already-consumed first character plus the following
alphanumeric run. -/
def lexKeyword (c : Char) (cs : List Char) : Tok × List Char :=
  (Tok.keyword (c :: cs.takeWhile isAlphaNumC), cs.dropWhile isAlphaNumC)

/-- Embeds the `WavefrontLexer.lexTokens`/`lexToken` loop
(wavefront-lexer.js lines 25-76) as fuel recursion; every iteration
consumes at least one character, so `length + 1` fuel never runs out.
Whitespace is skipped, `\n` emits NEWLINE, `#` skips to (not past) the
end of line, `/` emits SLASH, a digit (or minus followed by a digit)
starts a number, a letter starts a keyword, anything else is ignored;
a final EOF token always terminates the stream. -/
def lexAux : ℕ → List Char → List Tok
  | 0, _ => [Tok.eof]
  | _ + 1, [] => [Tok.eof]
  | fuel + 1, c :: rest =>
    if c = ' ' ∨ c = '\t' ∨ c = '\r' then lexAux fuel rest
    else if c = '\n' then Tok.newline :: lexAux fuel rest
    else if c = '#' then lexAux fuel (rest.dropWhile (fun d => d ≠ '\n'))
    else if c = '/' then Tok.slash :: lexAux fuel rest
    else if isDigitC c || (c = '-' && headIsDigit rest) then
      let r := lexNumber c rest
      r.1 :: lexAux fuel r.2
    else if isAlphaC c then
      let r := lexKeyword c rest
      r.1 :: lexAux fuel r.2
    else lexAux fuel rest

/-- `WavefrontLexer.lexTokens` on the source text's characters. -/
def lexTokens (source : List Char) : List Tok :=
  lexAux (source.length + 1) source

/-- Whether a token ends the current line for the parser: NEWLINE, or
EOF (`isAtEnd`). -/
def isLineEnd : Tok → Bool
  | Tok.newline => true
  | Tok.eof => true
  | _ => false

/-- Embeds `WavefrontParser.skipToNextLine` (wavefront-parser.js lines
142-149): advance to the next NEWLINE or EOF, then consume the NEWLINE
if that is what stopped the scan. -/
def skipToNextLine (ts : List Tok) : List Tok :=
  match ts.dropWhile (fun t => !isLineEnd t) with
  | Tok.newline :: rest => rest
  | rest => rest

/-- Embeds `WavefrontParser.consumeNumber` (wavefront-parser.js lines
129-139): the next token's value when it is a NUMBER (consuming it),
otherwise 0 without consuming. -/
def consumeNumber : List Tok → ℚ × List Tok
  | Tok.number q :: rest => (q, rest)
  | ts => (0, ts)

/-- Embeds `WavefrontParser.parseVertex` (wavefront-parser.js lines
85-92): three consumed numbers, then skip to the next line. -/
def parseVertexT (ts : List Tok) : Vec3 × List Tok :=
  let rx := consumeNumber ts
  let ry := consumeNumber rx.2
  let rz := consumeNumber ry.2
  (⟨rx.1, ry.1, rz.1⟩, skipToNextLine rz.2)

/-- The inner slash loop of `parseFace` (wavefront-parser.js lines
106-112): while a SLASH follows, consume it and one following NUMBER
if present (texture/normal indices are discarded). -/
def skipSlashGroups : List Tok → List Tok
  | Tok.slash :: Tok.number _ :: rest => skipSlashGroups rest
  | Tok.slash :: rest => skipSlashGroups rest
  | ts => ts

/-- The index-collecting loop of `WavefrontParser.parseFace`
(wavefront-parser.js lines 98-116) as fuel recursion: until NEWLINE or
EOF, each NUMBER token contributes its value minus 1 (OBJ 1-based to
0-based) and its slash groups are discarded; other tokens are
skipped. -/
def parseFaceAux : ℕ → List Tok → List ℚ → List ℚ × List Tok
  | 0, ts, acc => (acc.reverse, ts)
  | _ + 1, [], acc => (acc.reverse, [])
  | fuel + 1, t :: rest, acc =>
    match t with
    | Tok.eof => (acc.reverse, t :: rest)
    | Tok.newline => (acc.reverse, t :: rest)
    | Tok.number q => parseFaceAux fuel (skipSlashGroups rest) ((q - 1) :: acc)
    | _ => parseFaceAux fuel rest acc

/-- Embeds `WavefrontParser.parseFace` (wavefront-parser.js lines
95-122): collect the indices, keep the face only when it has at least
3 of them, then skip to the next line. -/
def parseFaceT (ts : List Tok) : Option (List ℚ) × List Tok :=
  let r := parseFaceAux (ts.length + 1) ts []
  (if 3 ≤ r.1.length then some r.1 else none, skipToNextLine r.2)

/-- Embeds the `WavefrontParser.parse`/`parseStatement` loop
(wavefront-parser.js lines 38-82) as fuel recursion; every iteration
consumes at least one token.  NEWLINE is skipped; keyword `v` parses a
vertex, keyword `f` parses a face, an unknown keyword skips its line;
any other token is skipped; parsing stops at EOF or the end of the
token list. -/
def parseAux : ℕ → List Tok → List Vec3 → List (List ℚ) →
    List Vec3 × List (List ℚ)
  | 0, _, vs, fs => (vs.reverse, fs.reverse)
  | _ + 1, [], vs, fs => (vs.reverse, fs.reverse)
  | fuel + 1, t :: rest, vs, fs =>
    match t with
    | Tok.eof => (vs.reverse, fs.reverse)
    | Tok.newline => parseAux fuel rest vs fs
    | Tok.keyword k =>
      if k = ['v'] then
        let r := parseVertexT rest
        parseAux fuel r.2 (r.1 :: vs) fs
      else if k = ['f'] then
        let r := parseFaceT rest
        parseAux fuel r.2 vs
          (match r.1 with
           | some idxs => idxs :: fs
           | none => fs)
      else parseAux fuel (skipToNextLine rest) vs fs
    | _ => parseAux fuel rest vs fs

/-- `WavefrontParser.parse`: the vertices and face index lists read
from a token stream. -/
def parseTokens (ts : List Tok) : List Vec3 × List (List ℚ) :=
  parseAux (ts.length + 1) ts [] []

/-- The lexer-then-parser pipeline on raw OBJ text (the converter path
of src/src/wavefront-loading). -/
def parseObjText (source : String) : List Vec3 × List (List ℚ) :=
  parseTokens (lexTokens source.toList)

/-- Scene objects are identified by JavaScript object identity; the
embedding names each distinct `SceneObject` instance by a natural
number. -/
abbrev SceneObjId := ℕ

/-- JavaScript `Map.set`: replace the value of an existing key, or
append a new entry in insertion order. -/
def mapSet (l : List (ℕ × ℕ)) (k v : ℕ) : List (ℕ × ℕ) :=
  if l.any (fun p => p.1 = k) then
    l.map (fun p => if p.1 = k then (k, v) else p)
  else l ++ [(k, v)]

/-- JavaScript `Map.delete`: remove the entry of a key. -/
def mapDelete (l : List (ℕ × ℕ)) (k : ℕ) : List (ℕ × ℕ) :=
  l.filter (fun p => p.1 ≠ k)

/-- Embeds `Scene` (src/src/core/scene.js): object list, the next id
counter starting at 1, and the two id mappings. -/
structure SceneSt where
  sceneObjects : List SceneObjId
  nextId : ℕ
  idToObject : List (ℕ × SceneObjId)
  objectToId : List (SceneObjId × ℕ)
deriving DecidableEq, Repr

/-- A freshly constructed `Scene`. -/
def SceneSt.init : SceneSt :=
  ⟨[], 1, [], []⟩

/-- Embeds `Scene.addSceneObject` (scene.js lines 25-35): throwing on a
duplicate is modelled as returning `none` with the state unchanged
(the throw happens before any mutation); otherwise the object is
appended, both mappings extended, and the fresh id returned. -/
def addSceneObject (s : SceneSt) (o : SceneObjId) : SceneSt × Option ℕ :=
  if (List.lookup o s.objectToId).isSome then (s, none)
  else
    (⟨s.sceneObjects ++ [o], s.nextId + 1,
      mapSet s.idToObject s.nextId o,
      mapSet s.objectToId o s.nextId⟩, some s.nextId)

/-- Embeds `Scene.removeSceneObject` (scene.js lines 41-52): when the
object is present in the list, it is spliced out and, when it has an
id, both mappings erase it; otherwise nothing happens. -/
def removeSceneObject (s : SceneSt) (o : SceneObjId) : SceneSt :=
  if o ∈ s.sceneObjects then
    match List.lookup o s.objectToId with
    | some theId =>
      ⟨s.sceneObjects.erase o, s.nextId,
        mapDelete s.idToObject theId, mapDelete s.objectToId o⟩
    | none => ⟨s.sceneObjects.erase o, s.nextId, s.idToObject, s.objectToId⟩
  else s

/-- One call against a `Scene` instance. -/
inductive SceneOp where
  | add (o : SceneObjId)
  | remove (o : SceneObjId)

/-- Runs a call sequence against a scene, collecting the ids returned
by the successful `addSceneObject` calls in order. -/
def runOps : SceneSt → List SceneOp → SceneSt × List ℕ
  | s, [] => (s, [])
  | s, SceneOp.add o :: rest =>
    let r := addSceneObject s o
    let rf := runOps r.1 rest
    (rf.1,
      match r.2 with
      | some theId => theId :: rf.2
      | none => rf.2)
  | s, SceneOp.remove o :: rest => runOps (removeSceneObject s o) rest

/-- `Vector3` over `ℝ`, for the magnitude/normalization claim: the
square root forces the real-number model. -/
structure Vec3R where
  x : ℝ
  y : ℝ
  z : ℝ

/-- `Vector3.zero()` in the real model. -/
noncomputable def Vec3R.zero : Vec3R := ⟨0, 0, 0⟩

/-- `Vector3.getMagnitude` (vector3.js lines 168-170): the square root
of the sum of squared components. -/
noncomputable def Vec3R.getMagnitude (v : Vec3R) : ℝ :=
  Real.sqrt (v.x * v.x + v.y * v.y + v.z * v.z)

/-- Embeds `Vector3.getNormalized` (vector3.js lines 156-162): the zero
vector when the magnitude is 0 (the guard makes the division
unreachable), otherwise the componentwise division by the magnitude. -/
noncomputable def Vec3R.getNormalized (v : Vec3R) : Vec3R :=
  let mag := Real.sqrt (v.x * v.x + v.y * v.y + v.z * v.z)
  if mag = 0 then Vec3R.zero
  else ⟨v.x / mag, v.y / mag, v.z / mag⟩

/-- A camera at a concrete non-trivial pose, used by concrete
instantiations. -/
def camPose : Camera :=
  { screenW := 800, screenH := 600, aspect := 4/3, focal := 1
    pos := ⟨2, -3, 5⟩
    rotCX := 3/5, rotSX := 4/5
    rotCY := 5/13, rotSY := 12/13
    rotCZ := 1, rotSZ := 0
    cull := false }

/-- A camera at the identity pose with back-face culling enabled, used
by concrete instantiations. -/
def camId : Camera :=
  { screenW := 1, screenH := 1, aspect := 1, focal := 1
    pos := ⟨0, 0, 0⟩
    rotCX := 1, rotSX := 0
    rotCY := 1, rotSY := 0
    rotCZ := 1, rotSZ := 0
    cull := true }

/-- The quadrilateral face refuting the universal winding-reversal
claim: its first three vertices and the first three of its reversal
span different planes. -/
def quadFace : List Vec3 :=
  [⟨0, 0, 1⟩, ⟨1, 0, 1⟩, ⟨0, 1, 1⟩, ⟨0, 0, -1⟩]

lemma getTranslated_neg_cancel (v p : Vec3) :
    (v.getTranslated p).getTranslated (p.getScaled (-1)) = v := by
  cases v
  cases p
  simp only [Vec3.getTranslated, Vec3.getScaled, Vec3.mk.injEq]
  refine ⟨by ring, by ring, by ring⟩

lemma getRotatedX_neg_cancel (v : Vec3) (c s : ℚ) (h : c ^ 2 + s ^ 2 = 1) :
    (v.getRotatedX c s).getRotatedX c (-s) = v := by
  cases v with
  | mk x y z =>
    simp only [Vec3.getRotatedX, Vec3.mk.injEq]
    refine ⟨trivial, by linear_combination y * h, by linear_combination z * h⟩

lemma getRotatedY_neg_cancel (v : Vec3) (c s : ℚ) (h : c ^ 2 + s ^ 2 = 1) :
    (v.getRotatedY c s).getRotatedY c (-s) = v := by
  cases v with
  | mk x y z =>
    simp only [Vec3.getRotatedY, Vec3.mk.injEq]
    refine ⟨by linear_combination x * h, trivial, by linear_combination z * h⟩

lemma getRotatedZ_neg_cancel (v : Vec3) (c s : ℚ) (h : c ^ 2 + s ^ 2 = 1) :
    (v.getRotatedZ c s).getRotatedZ c (-s) = v := by
  cases v with
  | mk x y z =>
    simp only [Vec3.getRotatedZ, Vec3.mk.injEq]
    refine ⟨by linear_combination x * h, by linear_combination y * h, trivial⟩

lemma getScaledByVector_one (v : Vec3) :
    v.getScaledByVector Vec3.one = v := by
  cases v
  simp [Vec3.getScaledByVector, Vec3.one]

/-- C1: for every camera pose (position `cam.pos` and Euler rotation
given by its cosine/sine pairs) and every point `q`,
`_worldToCameraSpace` (translate by the negated position, then rotate
by the negated rotation in reverse axis order Z, Y, X) applied to the
forward pose transform of `q` (the `getSceneVertices` body with unit
scale: rotate about X, then Y, then Z, then translate) returns `q`
exactly: the world-to-camera transform is the exact algebraic inverse
of the forward pose transform.  In particular a camera at identity
pose maps every point to itself. -/
theorem worldToCameraSpace_inverts_forwardPose (cam : Camera)
    (hx : cam.rotCX ^ 2 + cam.rotSX ^ 2 = 1)
    (hy : cam.rotCY ^ 2 + cam.rotSY ^ 2 = 1)
    (hz : cam.rotCZ ^ 2 + cam.rotSZ ^ 2 = 1) (q : Vec3) :
    worldToCameraSpace cam
      (getSceneVertex Vec3.one cam.rotCX cam.rotSX cam.rotCY cam.rotSY
        cam.rotCZ cam.rotSZ cam.pos q) = q := by
  rw [worldToCameraSpace, getSceneVertex, getScaledByVector_one,
    getTranslated_neg_cancel, getRotatedZ_neg_cancel _ _ _ hz,
    getRotatedY_neg_cancel _ _ _ hy, getRotatedX_neg_cancel _ _ _ hx]

/-- Witness for C1 at a concrete camera pose and point. -/
theorem worldToCameraSpace_inverts_forwardPose_witness :
    (camPose.rotCX ^ 2 + camPose.rotSX ^ 2 = 1) ∧
    (camPose.rotCY ^ 2 + camPose.rotSY ^ 2 = 1) ∧
    (camPose.rotCZ ^ 2 + camPose.rotSZ ^ 2 = 1) ∧
    worldToCameraSpace camPose
      (getSceneVertex Vec3.one camPose.rotCX camPose.rotSX camPose.rotCY
        camPose.rotSY camPose.rotCZ camPose.rotSZ camPose.pos
        ⟨7, 11, 13⟩) = ⟨7, 11, 13⟩ :=
  ⟨by norm_num [camPose], by norm_num [camPose], by norm_num [camPose],
    worldToCameraSpace_inverts_forwardPose camPose
      (by norm_num [camPose]) (by norm_num [camPose])
      (by norm_num [camPose]) ⟨7, 11, 13⟩⟩

lemma rawNormalDot_swap (A B C : Vec3) :
    ((B.getDifference C).getCross (A.getDifference C)).getDot C =
      -(((B.getDifference A).getCross (C.getDifference A)).getDot A) := by
  cases A
  cases B
  cases C
  simp only [Vec3.getDifference, Vec3.getCross, Vec3.getDot]
  ring

lemma faceNormalDot_swap (cam : Camera) (p0 p1 p2 : Vec3) :
    faceNormalDot cam p2 p1 p0 = -faceNormalDot cam p0 p1 p2 := by
  simp only [faceNormalDot]
  exact rawNormalDot_swap (worldToCameraSpace cam p0)
    (worldToCameraSpace cam p1) (worldToCameraSpace cam p2)

/-- C2 (amended): for every face with at least 3 vertices the camera
classifies it back-facing exactly when the dot product of the
camera-space normal `(v1 - v0) × (v2 - v0)` with `v0` is strictly
greater than 0, and such a face is culled (no ProjectedFace emitted)
when culling is enabled; and for a 3-vertex face whose normal has
nonzero dot product with `v0`, listing its vertices in reverse order
flips the classification.  (The reversal consequence is restricted to
3-vertex faces: with 4 or more vertices the classification of the
reversed list uses its own first three vertices, and a concrete
quadrilateral keeps the same classification both ways.) -/
theorem backFaceCulling_spec (cam : Camera) (p0 p1 p2 : Vec3)
    (rest : List Vec3) :
    (isBackFacingL cam (p0 :: p1 :: p2 :: rest) = true ↔
      0 < faceNormalDot cam p0 p1 p2) ∧
    (cam.cull = true → 0 < faceNormalDot cam p0 p1 p2 →
      projectSceneObjectFace cam (p0 :: p1 :: p2 :: rest) = none) ∧
    (faceNormalDot cam p0 p1 p2 ≠ 0 →
      isBackFacingL cam ([p0, p1, p2].reverse) =
        !isBackFacingL cam [p0, p1, p2]) := by
  refine ⟨?_, ?_, ?_⟩
  · simp [isBackFacingL, isBackFacing]
  · intro hc hd
    rw [projectSceneObjectFace, if_pos]
    refine ⟨hc, by simp, by simp [isBackFacingL, isBackFacing, hd]⟩
  · intro hne
    have hswap := faceNormalDot_swap cam p0 p1 p2
    rcases lt_trichotomy 0 (faceNormalDot cam p0 p1 p2) with h | h | h
    · simp [isBackFacingL, isBackFacing, hswap, h, asymm h]
    · exact absurd h.symm hne
    · simp [isBackFacingL, isBackFacing, hswap, h, asymm h, neg_pos]

/-- Counterexample to C2 as stated: a quadrilateral face (4 vertices),
viewed by the identity-pose camera, whose normal has nonzero dot
product with `v0`, yet the camera classifies both the face and its
reversal as back-facing — reversing the vertex order does not flip the
classification. -/
theorem backFaceCulling_reverse_counterexample :
    faceNormalDot camId ⟨0, 0, 1⟩ ⟨1, 0, 1⟩ ⟨0, 1, 1⟩ ≠ 0 ∧
    isBackFacingL camId quadFace = true ∧
    isBackFacingL camId quadFace.reverse = true := by
  refine ⟨by norm_num [faceNormalDot, worldToCameraSpace, camId,
    Vec3.getTranslated, Vec3.getScaled, Vec3.getRotatedX, Vec3.getRotatedY,
    Vec3.getRotatedZ, Vec3.getDifference, Vec3.getCross, Vec3.getDot], ?_, ?_⟩
  · norm_num [quadFace, isBackFacingL, isBackFacing, faceNormalDot,
      worldToCameraSpace, camId, Vec3.getTranslated, Vec3.getScaled,
      Vec3.getRotatedX, Vec3.getRotatedY, Vec3.getRotatedZ,
      Vec3.getDifference, Vec3.getCross, Vec3.getDot]
  · norm_num [quadFace, isBackFacingL, isBackFacing, faceNormalDot,
      worldToCameraSpace, camId, Vec3.getTranslated, Vec3.getScaled,
      Vec3.getRotatedX, Vec3.getRotatedY, Vec3.getRotatedZ,
      Vec3.getDifference, Vec3.getCross, Vec3.getDot]

lemma projectFaceAux_isSome (cam : Camera) (fv : List Vec3) :
    ∀ depthSum acc,
      (projectFaceAux cam fv depthSum acc).isSome = true ↔
        ∀ v ∈ fv, nearEpsilon < (worldToCameraSpace cam v).z := by
  induction fv with
  | nil => simp [projectFaceAux]
  | cons v rest ih =>
    intro depthSum acc
    by_cases hz : (worldToCameraSpace cam v).z ≤ nearEpsilon
    · simp [projectFaceAux, getNormalizedScreenPosition, hz, not_lt.mpr hz]
    · have hlt := not_le.mp hz
      simp only [projectFaceAux, getNormalizedScreenPosition, if_neg hz]
      rw [ih]
      simp [hlt]

lemma projectFaceAux_depthSum (cam : Camera) (fv : List Vec3) :
    ∀ depthSum acc d sps,
      projectFaceAux cam fv depthSum acc = some (d, sps) →
        d = depthSum + ((fv.map
          (fun v => (worldToCameraSpace cam v).z)).sum) := by
  induction fv with
  | nil =>
    intro depthSum acc d sps h
    simp [projectFaceAux] at h
    simp [h.1.symm]
  | cons v rest ih =>
    intro depthSum acc d sps h
    by_cases hz : (worldToCameraSpace cam v).z ≤ nearEpsilon
    · simp [projectFaceAux, getNormalizedScreenPosition, hz] at h
    · simp only [projectFaceAux, getNormalizedScreenPosition,
        if_neg hz] at h
      have := ih _ _ _ _ h
      simp only [List.map_cons, List.sum_cons]
      rw [this]
      ring

/-- C3: for a face that survives back-face culling, the camera emits a
ProjectedFace exactly when every vertex's camera-space Z is strictly
in front of the near-plane epsilon `1e-4` (one vertex at or behind it
drops the whole face), and the depth of an emitted face is the
arithmetic mean (sum divided by vertex count) of the camera-space Z of
all the face's vertices. -/
theorem projectFace_nearPlane_and_meanDepth (cam : Camera)
    (fv : List Vec3)
    (hsurvive : ¬(cam.cull = true ∧ 3 ≤ fv.length ∧
      isBackFacingL cam fv = true)) :
    ((projectSceneObjectFace cam fv).isSome = true ↔
      ∀ v ∈ fv, nearEpsilon < (worldToCameraSpace cam v).z) ∧
    (∀ pf, projectSceneObjectFace cam fv = some pf →
      pf.depth = ((fv.map (fun v => (worldToCameraSpace cam v).z)).sum) /
        (fv.length : ℚ)) := by
  rw [projectSceneObjectFace, if_neg hsurvive]
  constructor
  · rw [projectFace]
    rcases haux : projectFaceAux cam fv 0 [] with _ | ⟨d, sps⟩
    · have := projectFaceAux_isSome cam fv 0 []
      rw [haux] at this
      simpa using this
    · have := projectFaceAux_isSome cam fv 0 []
      rw [haux] at this
      simpa using this
  · intro pf hpf
    rw [projectFace] at hpf
    rcases haux : projectFaceAux cam fv 0 [] with _ | ⟨d, sps⟩
    · rw [haux] at hpf
      exact absurd hpf (by simp)
    · rw [haux] at hpf
      have hd := projectFaceAux_depthSum cam fv 0 [] d sps haux
      simp only [Option.some.injEq] at hpf
      rw [← hpf]
      simp [hd]

/-- Witness for C3: a concrete triangle in front of a culling-disabled
camera. -/
theorem projectFace_nearPlane_and_meanDepth_witness :
    ((projectSceneObjectFace camPose
        [⟨2, -3, 6⟩, ⟨3, -3, 6⟩, ⟨2, -2, 6⟩]).isSome = true ↔
      ∀ v ∈ [(⟨2, -3, 6⟩ : Vec3), ⟨3, -3, 6⟩, ⟨2, -2, 6⟩],
        nearEpsilon < (worldToCameraSpace camPose v).z) ∧
    (∀ pf, projectSceneObjectFace camPose
        [⟨2, -3, 6⟩, ⟨3, -3, 6⟩, ⟨2, -2, 6⟩] = some pf →
      pf.depth = ((([(⟨2, -3, 6⟩ : Vec3), ⟨3, -3, 6⟩, ⟨2, -2, 6⟩]).map
          (fun v => (worldToCameraSpace camPose v).z)).sum) / 3) :=
  projectFace_nearPlane_and_meanDepth camPose
    [⟨2, -3, 6⟩, ⟨3, -3, 6⟩, ⟨2, -2, 6⟩] (by simp [camPose])

instance : IsTotal ProjFace faceLe :=
  ⟨fun a b => by
    simp only [faceLe, compareByDepth, sub_nonpos]
    exact le_total b.depth a.depth⟩

instance : IsTrans ProjFace faceLe :=
  ⟨fun a b c hab hbc => by
    simp only [faceLe, compareByDepth, sub_nonpos] at *
    exact le_trans hbc hab⟩

/-- C4: with depth sorting enabled, the render step processes a
permutation of the collected ProjectedFaces, and when their depths are
pairwise distinct the processing order is strictly descending in depth
(farthest first, painter's algorithm). -/
theorem renderFaceOrder_sorts_descending (allFaces : List ProjFace)
    (hdistinct : allFaces.Pairwise (fun a b => a.depth ≠ b.depth)) :
    (renderFaceOrder true allFaces).Perm allFaces ∧
    (renderFaceOrder true allFaces).Pairwise
      (fun a b => b.depth < a.depth) := by
  have hperm : (renderFaceOrder true allFaces).Perm allFaces := by
    simpa [renderFaceOrder, sortProjectedFaces] using
      List.perm_insertionSort faceLe allFaces
  refine ⟨hperm, ?_⟩
  have hsorted : (renderFaceOrder true allFaces).Pairwise faceLe := by
    simpa [renderFaceOrder, sortProjectedFaces] using
      List.sorted_insertionSort faceLe allFaces
  have hne : (renderFaceOrder true allFaces).Pairwise
      (fun a b => a.depth ≠ b.depth) :=
    ((List.Perm.pairwise_iff (fun h => h.symm) hperm).mpr) hdistinct
  refine (hsorted.and hne).imp ?_
  intro a b hab
  have hle : b.depth ≤ a.depth := sub_nonpos.mp hab.1
  exact lt_of_le_of_ne hle (fun h => hab.2 h.symm)

/-- Witness for C4: three concrete faces with pairwise distinct depths. -/
theorem renderFaceOrder_sorts_descending_witness :
    (renderFaceOrder true [⟨[], 5⟩, ⟨[], 9⟩, ⟨[], 2⟩]).Perm
      [⟨[], 5⟩, ⟨[], 9⟩, ⟨[], 2⟩] ∧
    (renderFaceOrder true
      [(⟨[], 5⟩ : ProjFace), ⟨[], 9⟩, ⟨[], 2⟩]).Pairwise
        (fun a b => b.depth < a.depth) :=
  renderFaceOrder_sorts_descending [⟨[], 5⟩, ⟨[], 9⟩, ⟨[], 2⟩]
    (by decide)

/-- C5: for `near < far`, `calculateFogAmount` returns 0 at or before
the near plane, 1 at or beyond the far plane, and in between the
linear interpolant `(depth - near) / (far - near)`, which lies in
`(0, 1)`; the midpoint `(near + far) / 2` yields `1 / 2`. -/
theorem calculateFogAmount_spec (near far : ℚ) (h : near < far) :
    (∀ depth, depth ≤ near → calculateFogAmount depth near far = 0) ∧
    (∀ depth, far ≤ depth → calculateFogAmount depth near far = 1) ∧
    (∀ depth, near < depth → depth < far →
      calculateFogAmount depth near far = (depth - near) / (far - near) ∧
      0 < calculateFogAmount depth near far ∧
      calculateFogAmount depth near far < 1) ∧
    calculateFogAmount ((near + far) / 2) near far = 1 / 2 := by
  refine ⟨?_, ?_, ?_, ?_⟩
  · intro depth hd
    simp [calculateFogAmount, hd]
  · intro depth hd
    have hnotle : ¬depth ≤ near := by linarith
    simp [calculateFogAmount, hnotle, hd]
  · intro depth hlo hhi
    have h1 : ¬depth ≤ near := by linarith
    have h2 : ¬far ≤ depth := by linarith
    have hval : calculateFogAmount depth near far =
        (depth - near) / (far - near) := by
      simp [calculateFogAmount, h1, h2]
    refine ⟨hval, ?_, ?_⟩
    · rw [hval]
      exact div_pos (by linarith) (by linarith)
    · rw [hval]
      exact (div_lt_one (by linarith)).mpr (by linarith)
  · have h1 : ¬(near + far) / 2 ≤ near := by linarith
    have h2 : ¬far ≤ (near + far) / 2 := by linarith
    have hne : far - near ≠ 0 := by linarith
    rw [calculateFogAmount, if_neg h1, if_neg h2]
    field_simp
    ring

/-- Witness for C5 at the default fog planes near 5, far 50. -/
theorem calculateFogAmount_spec_witness :
    (∀ depth, depth ≤ (5 : ℚ) → calculateFogAmount depth 5 50 = 0) ∧
    (∀ depth, (50 : ℚ) ≤ depth → calculateFogAmount depth 5 50 = 1) ∧
    (∀ depth, (5 : ℚ) < depth → depth < 50 →
      calculateFogAmount depth 5 50 = (depth - 5) / (50 - 5) ∧
      0 < calculateFogAmount depth 5 50 ∧
      calculateFogAmount depth 5 50 < 1) ∧
    calculateFogAmount ((5 + 50) / 2) 5 50 = 1 / 2 :=
  calculateFogAmount_spec 5 50 (by norm_num)

lemma addSceneObject_dup {s : SceneSt} {o : SceneObjId}
    (h : (List.lookup o s.objectToId).isSome = true) :
    addSceneObject s o = (s, none) := by
  simp [addSceneObject, h]

lemma addSceneObject_new {s : SceneSt} {o : SceneObjId}
    (h : ¬(List.lookup o s.objectToId).isSome = true) :
    addSceneObject s o =
      (⟨s.sceneObjects ++ [o], s.nextId + 1,
        mapSet s.idToObject s.nextId o,
        mapSet s.objectToId o s.nextId⟩, some s.nextId) := by
  simp [addSceneObject, h]

lemma removeSceneObject_nextId (s : SceneSt) (o : SceneObjId) :
    (removeSceneObject s o).nextId = s.nextId := by
  rw [removeSceneObject]
  split
  · split <;> rfl
  · rfl

lemma runOps_ids_eq_range (ops : List SceneOp) :
    ∀ s : SceneSt,
      (runOps s ops).2 = List.range' s.nextId (runOps s ops).2.length := by
  induction ops with
  | nil =>
    intro s
    simp [runOps]
  | cons op rest ih =>
    intro s
    cases op with
    | add o =>
      by_cases h : (List.lookup o s.objectToId).isSome = true
      · simp only [runOps, addSceneObject_dup h]
        exact ih s
      · simp only [runOps, addSceneObject_new h, List.length_cons,
          List.range'_succ]
        congr 1
        exact ih _
    | remove o =>
      simp only [runOps]
      have hrec := ih (removeSceneObject s o)
      rwa [removeSceneObject_nextId] at hrec

/-- C7: over any sequence of additions and removals against a fresh
Scene, the ids returned by the successful `addSceneObject` calls are
exactly the consecutive integers starting at 1, in order — strictly
increasing, starting at 1, and never assigned twice, no matter which
removals happen in between. -/
theorem scene_ids_strictly_increasing (ops : List SceneOp) :
    (runOps SceneSt.init ops).2 =
      List.range' 1 (runOps SceneSt.init ops).2.length ∧
    (runOps SceneSt.init ops).2.Pairwise (fun a b => a < b) := by
  have h := runOps_ids_eq_range ops SceneSt.init
  refine ⟨h, ?_⟩
  rw [h]
  exact List.pairwise_lt_range' 1 _

/-- C8: `addSceneObject` on an already-registered object reports the
error and leaves the scene unchanged (the throw happens before any
mutation); `removeSceneObject` on an object that is not present
returns the scene completely unchanged without raising. -/
theorem scene_add_duplicate_remove_absent (s : SceneSt) (o : SceneObjId) :
    ((List.lookup o s.objectToId).isSome = true →
      addSceneObject s o = (s, none)) ∧
    (o ∉ s.sceneObjects → removeSceneObject s o = s) := by
  refine ⟨fun h => addSceneObject_dup h, fun h => ?_⟩
  simp [removeSceneObject, h]

/-- Witness for C8: re-adding object 7 to a scene that holds it errors
without change, and removing the absent object 8 is the identity. -/
theorem scene_add_duplicate_remove_absent_witness :
    addSceneObject (addSceneObject SceneSt.init 7).1 7 =
      ((addSceneObject SceneSt.init 7).1, none) ∧
    removeSceneObject (addSceneObject SceneSt.init 7).1 8 =
      (addSceneObject SceneSt.init 7).1 :=
  ⟨(scene_add_duplicate_remove_absent (addSceneObject SceneSt.init 7).1
      7).1 (by decide),
    (scene_add_duplicate_remove_absent (addSceneObject SceneSt.init 7).1
      8).2 (by decide)⟩

/-- C9: `getNormalized` applied to a vector of zero magnitude returns
the zero vector: the division by the magnitude is guarded by the
`mag === 0` check and unreachable there, so the function is total and
never divides by zero. -/
theorem getNormalized_zero_magnitude (v : Vec3R)
    (h : v.getMagnitude = 0) : v.getNormalized = Vec3R.zero := by
  rw [Vec3R.getMagnitude] at h
  simp only [Vec3R.getNormalized]
  simp [h]

/-- Witness for C9: the zero vector has magnitude 0 and normalizes to
itself. -/
theorem getNormalized_zero_magnitude_witness :
    Vec3R.zero.getMagnitude = 0 ∧
    Vec3R.zero.getNormalized = Vec3R.zero :=
  have hm : Vec3R.zero.getMagnitude = 0 := by
    simp [Vec3R.getMagnitude, Vec3R.zero]
  ⟨hm, getNormalized_zero_magnitude Vec3R.zero hm⟩

lemma digitToNat_c0 : digitToNat '0' = 0 := by decide
lemma digitToNat_c1 : digitToNat '1' = 1 := by decide
lemma digitToNat_c2 : digitToNat '2' = 2 := by decide
lemma digitToNat_c3 : digitToNat '3' = 3 := by decide
lemma digitToNat_c4 : digitToNat '4' = 4 := by decide
lemma digitToNat_c5 : digitToNat '5' = 5 := by decide
lemma digitToNat_c6 : digitToNat '6' = 6 := by decide
lemma digitToNat_c7 : digitToNat '7' = 7 := by decide
lemma digitToNat_c8 : digitToNat '8' = 8 := by decide
lemma digitToNat_c9 : digitToNat '9' = 9 := by decide

set_option maxHeartbeats 3200000 in
/-- C6: lexing then parsing the OBJ text
`v 0 0 0\nv 1 0 0\nv 0 1 0\nf 1 2 3\n` yields exactly the 3 vertices
(0,0,0), (1,0,0), (0,1,0) in that order and exactly one face with
index list [0, 1, 2]: each 1-based OBJ vertex index is converted to
0-based by subtracting 1.  The same text with `/texture/normal` index
groups attached to the face indices parses to the same result: the
groups are discarded. -/
theorem parseObjText_triangle :
    parseObjText "v 0 0 0\nv 1 0 0\nv 0 1 0\nf 1 2 3\n" =
      ([⟨0, 0, 0⟩, ⟨1, 0, 0⟩, ⟨0, 1, 0⟩], [[0, 1, 2]]) ∧
    parseObjText "v 0 0 0\nv 1 0 0\nv 0 1 0\nf 1/4/5 2/6 3\n" =
      ([⟨0, 0, 0⟩, ⟨1, 0, 0⟩, ⟨0, 1, 0⟩], [[0, 1, 2]]) := by
  constructor <;>
    norm_num +decide [parseObjText, parseTokens, parseAux, parseFaceT,
      parseFaceAux, parseVertexT, consumeNumber, skipToNextLine,
      skipSlashGroups, isLineEnd, lexTokens, lexAux, lexNumber,
      lexKeyword, lexNumberVal, lexExpPart, natOfDigits, headIsDigit,
      isDigitC, isAlphaC, isAlphaNumC, digitToNat_c0, digitToNat_c1,
      digitToNat_c2, digitToNat_c3, digitToNat_c4, digitToNat_c5,
      digitToNat_c6, digitToNat_c7, digitToNat_c8, digitToNat_c9,
      List.takeWhile, List.dropWhile]

set_option maxHeartbeats 3200000 in
/-- C10: the OBJ parser performs no range validation of face vertex
indices: the text `v 0 0 0\nf 1 2 3\n` parses to a single vertex yet
the face [0, 1, 2], whose indices 1 and 2 are at or beyond the vertex
list's length, and a face group with index 0 (text
`v 0 0 0\nv 1 0 0\nv 0 1 0\nf 0 2 3\n`) becomes the negative index
-1; `Camera.projectSceneObject` later reads the scene-vertex array at
these indices unchecked. -/
theorem parseObjText_no_index_validation :
    parseObjText "v 0 0 0\nf 1 2 3\n" = ([⟨0, 0, 0⟩], [[0, 1, 2]]) ∧
    (∃ f ∈ (parseObjText "v 0 0 0\nf 1 2 3\n").2, ∃ idx ∈ f,
      idx < 0 ∨ ((parseObjText "v 0 0 0\nf 1 2 3\n").1.length : ℚ) ≤ idx) ∧
    parseObjText "v 0 0 0\nv 1 0 0\nv 0 1 0\nf 0 2 3\n" =
      ([⟨0, 0, 0⟩, ⟨1, 0, 0⟩, ⟨0, 1, 0⟩], [[-1, 1, 2]]) := by
  have h1 : parseObjText "v 0 0 0\nf 1 2 3\n" =
      ([⟨0, 0, 0⟩], [[0, 1, 2]]) := by
    norm_num +decide [parseObjText, parseTokens, parseAux, parseFaceT,
      parseFaceAux, parseVertexT, consumeNumber, skipToNextLine,
      skipSlashGroups, isLineEnd, lexTokens, lexAux, lexNumber,
      lexKeyword, lexNumberVal, lexExpPart, natOfDigits, headIsDigit,
      isDigitC, isAlphaC, isAlphaNumC, digitToNat_c0, digitToNat_c1,
      digitToNat_c2, digitToNat_c3, digitToNat_c4, digitToNat_c5,
      digitToNat_c6, digitToNat_c7, digitToNat_c8, digitToNat_c9,
      List.takeWhile, List.dropWhile]
  have h3 : parseObjText "v 0 0 0\nv 1 0 0\nv 0 1 0\nf 0 2 3\n" =
      ([⟨0, 0, 0⟩, ⟨1, 0, 0⟩, ⟨0, 1, 0⟩], [[-1, 1, 2]]) := by
    norm_num +decide [parseObjText, parseTokens, parseAux, parseFaceT,
      parseFaceAux, parseVertexT, consumeNumber, skipToNextLine,
      skipSlashGroups, isLineEnd, lexTokens, lexAux, lexNumber,
      lexKeyword, lexNumberVal, lexExpPart, natOfDigits, headIsDigit,
      isDigitC, isAlphaC, isAlphaNumC, digitToNat_c0, digitToNat_c1,
      digitToNat_c2, digitToNat_c3, digitToNat_c4, digitToNat_c5,
      digitToNat_c6, digitToNat_c7, digitToNat_c8, digitToNat_c9,
      List.takeWhile, List.dropWhile]
  refine ⟨h1, ?_, h3⟩
  rw [h1]
  refine ⟨[0, 1, 2], by simp, 2, by norm_num, Or.inr (by norm_num)⟩
